import Mathlib

/-!
Verification of the confly configuration-tree builder (src/confly/confly.py).

The development shallowly embeds the Python source: Python scalar values
become `PyVal` (ints are unbounded in Python, so `Int`; floats are modelled
exactly as rationals with infinities and NaN, IEEE rounding being out of
scope of every claim considered here), YAML trees become `Value`, and every
place where the Python code can raise an exception is made explicit with
`Except Exc`.  Loops whose termination is in question (the find-and-replace
loop of `_interpolate`) take a fuel parameter; `none` means the fuel ran
out, and a result that holds for every fuel bound characterises the actual
(unbounded) execution.

Strings are modelled over Unicode characters as Lean `String`/`List Char`.
Python character classes (`str.isdigit`, `\w`, `\s`) are modelled faithfully
for the ASCII range plus the superscript digits, which is the alphabet every
claim below lives in; other Unicode classes are outside the model's scope.
-/

namespace Confly

/-- Python exceptions that the confly code can raise. `runtimeError` is the
`RuntimeError("Interpolation failed ...")` of `_interpolate_var` (the spec's
UndefinedVariable); the others are the built-in Python exception types that
the code can surface uncaught. -/
inductive Exc where
  | runtimeError
  | typeError
  | valueError
  | zeroDivisionError
  | fileNotFoundError
deriving DecidableEq, Repr

/-- Python float values: modelled exactly.  A finite float is the exact
rational `num / den` (`den` positive; the representation is not
normalized, and no claim compares two distinct representations of one
value).  IEEE-754 rounding is not modelled; no claim in this development
depends on inexact float arithmetic or on float repr. -/
inductive PyFloat where
  | finite (num : Int) (den : Nat)
  | inf (neg : Bool)
  | nan
deriving DecidableEq, Repr

/-- Python scalar values occurring as YAML leaves / expression results. -/
inductive PyVal where
  | vint (n : Int)
  | vfloat (f : PyFloat)
  | vstr (s : String)
  | vbool (b : Bool)
  | vnone
deriving DecidableEq, Repr

/-- The generic config tree: YAML mapping / sequence / scalar.  Python
dicts preserve insertion order, so a mapping is an association list;
the dict invariant (no duplicate keys) is stated as a hypothesis where
needed. -/
inductive Value where
  | vscal (p : PyVal)
  | vseq (l : List Value)
  | vmap (m : List (String × Value))
deriving Repr

/-! ## Character classes (Python semantics, ASCII scope) -/

/-- Python `\s` (the characters of `string.whitespace`). -/
def isPySpace (c : Char) : Bool :=
  c = ' ' || c = '\t' || c = '\n' || c = '\r' || c = '\x0b' || c = '\x0c'

/-- `\w` of the regex patterns in `__init__` (letters, digits, underscore;
ASCII scope of the model). -/
def isWordChar (c : Char) : Bool :=
  c.isAlphanum || c = '_'

/-- Superscript digit characters: accepted by Python `str.isdigit` but
rejected by `int()` (they are Unicode `No`, not decimal `Nd`). -/
def isSuperscriptDigit (c : Char) : Bool :=
  c = '¹' || c = '²' || c = '³' || c = '⁰' || c = '⁴' || c = '⁵' ||
  c = '⁶' || c = '⁷' || c = '⁸' || c = '⁹'

/-- Python `str.isdigit` (ASCII digits plus superscripts in the model's
alphabet): nonempty and all characters digit-like. -/
def pyIsDigit (s : String) : Bool :=
  !s.data.isEmpty && s.data.all (fun c => c.isDigit || isSuperscriptDigit c)

/-! ## List/string utilities mirroring the Python `str` methods used -/

/-- Python `str.split(sep)` for a one-character separator, on char lists:
`"a=b=c".split("=") = ["a","b","c"]`, `"".split("=") = [""]`. -/
def pySplitL (sep : Char) : List Char → List (List Char)
  | [] => [[]]
  | c :: t =>
    match pySplitL sep t with
    | [] => if c = sep then [[], []] else [[c]]
    | h :: r => if c = sep then [] :: h :: r else (c :: h) :: r

/-- Python `str.split(sep)` on strings. -/
def pySplit (s : String) (sep : Char) : List String :=
  (pySplitL sep s.data).map String.mk

/-- Python `str.strip()`: remove leading and trailing whitespace. -/
def pyStrip (s : String) : String :=
  String.mk (((s.data.dropWhile isPySpace).reverse.dropWhile isPySpace).reverse)

/-- Python `sub in s` substring containment, on char lists. -/
def containsSubL (l pat : List Char) : Bool :=
  if pat.isPrefixOf l then true
  else
    match l with
    | [] => false
    | _ :: t => containsSubL t pat

/-- Number of occurrences of a character. -/
def countChar (l : List Char) (c : Char) : Nat :=
  match l with
  | [] => 0
  | a :: t => (if a = c then 1 else 0) + countChar t c

/-- Python `s.replace(old, new, 1)`: replace the leftmost occurrence. -/
def replaceFirstL (l pat rep : List Char) : List Char :=
  if pat.isPrefixOf l then rep ++ l.drop pat.length
  else
    match l with
    | [] => []
    | c :: t => c :: replaceFirstL t pat rep

/-- Python `s.replace(old, new, 1)` on strings. -/
def pyReplaceFirst (s pat rep : String) : String :=
  String.mk (replaceFirstL s.data pat.data rep.data)

/-- First-occurrence lookup in an association list (Python `d[k]` /
`k in d` on an ordered dict). -/
def lookupD (m : List (String × Value)) (k : String) : Option Value :=
  match m with
  | [] => none
  | (k', v) :: t => if k' = k then some v else lookupD t k

/-- Give every entry with key `k` the value `v`, in position. -/
def dictReplace (k : String) (v : Value) :
    List (String × Value) → List (String × Value)
  | [] => []
  | (k0, v0) :: t =>
    (if k0 = k then (k, v) else (k0, v0)) :: dictReplace k v t

/-- Python `d[k] = v` on an ordered dict: an existing key keeps its
position and gets the new value, a fresh key is appended. -/
def dictInsert (d : List (String × Value)) (k : String) (v : Value) :
    List (String × Value) :=
  if d.any (fun p => p.1 = k) then dictReplace k v d
  else d ++ [(k, v)]

/-- Python `d1.update(d2)` on ordered dicts. -/
def dictUpdate (d1 d2 : List (String × Value)) : List (String × Value) :=
  d2.foldl (fun a p => dictInsert a p.1 p.2) d1

/-! ## `_maybe_convert_to_numeric` and `_apply_recursively` -/

/-- Value of a list of ASCII decimal digits. -/
def digitsVal (l : List Char) : Nat :=
  l.foldl (fun a c => 10 * a + (c.toNat - '0'.toNat)) 0

/-- Python `int(s)` restricted to the strings `str.isdigit` accepts:
succeeds exactly on nonempty all-decimal-digit strings (`Nd`; in the
model's alphabet, ASCII digits), fails on digit-like characters such as
superscripts. -/
def pyIntOfDigits (s : String) : Option Int :=
  if !s.data.isEmpty && s.data.all Char.isDigit then
    some (digitsVal s.data)
  else none

/-- Helper for the float grammar: mantissa digits and optional fraction,
returning (integer value of all mantissa digits, number of fraction
digits), or `none` if the shape is wrong. -/
def parseMantissa (l : List Char) : Option (Nat × Nat) :=
  let ip := l.takeWhile Char.isDigit
  let rest := l.drop ip.length
  match rest with
  | [] => if ip.isEmpty then none else some (digitsVal ip, 0)
  | '.' :: fracRest =>
    let fp := fracRest.takeWhile Char.isDigit
    if fracRest.drop fp.length ≠ [] then none
    else if ip.isEmpty && fp.isEmpty then none
    else some (digitsVal (ip ++ fp), fp.length)
  | _ => none

/-- Optional exponent part of a Python float literal (after `e`/`E`). -/
def parseExponent (l : List Char) : Option Int :=
  match l with
  | '+' :: t => if !t.isEmpty && t.all Char.isDigit then some (digitsVal t) else none
  | '-' :: t => if !t.isEmpty && t.all Char.isDigit then some (-(digitsVal t : Int)) else none
  | t => if !t.isEmpty && t.all Char.isDigit then some (digitsVal t) else none

/-- Python `float(s)`: optional surrounding whitespace, optional sign,
then `inf`/`infinity`/`nan` (case-insensitive) or a decimal literal with
optional fraction and exponent.  The value is exact; underscores in
literals and non-ASCII digits are outside the model's alphabet. -/
def pyFloatOfString (s : String) : Option PyFloat :=
  let l := ((s.data.dropWhile isPySpace).reverse.dropWhile isPySpace).reverse
  let signed : Bool × List Char :=
    match l with
    | '+' :: t => (false, t)
    | '-' :: t => (true, t)
    | t => (false, t)
  let neg := signed.1
  let body := signed.2
  let lower := body.map Char.toLower
  if lower = "inf".data || lower = "infinity".data then some (.inf neg)
  else if lower = "nan".data then some .nan
  else
    let mantPart := body.takeWhile (fun c => c ≠ 'e' && c ≠ 'E')
    let expPart := body.drop mantPart.length
    match parseMantissa mantPart with
    | none => none
    | some (m, fl) =>
      -- the literal's exact value is ±m / 10^fl, times 10^e
      let sm : Int := if neg then -(m : Int) else (m : Int)
      match expPart with
      | [] => some (.finite sm (10 ^ fl))
      | _ :: expDigits =>
        match parseExponent expDigits with
        | none => none
        | some e =>
          if 0 ≤ e then some (.finite (sm * 10 ^ e.toNat) (10 ^ fl))
          else some (.finite sm (10 ^ fl * 10 ^ (-e).toNat))

/-- `float.is_integer`: the denominator divides the numerator. -/
def pyFloatIsInteger : PyFloat → Bool
  | .finite n d => n % (d : Int) = 0
  | _ => false

/-- `int(f)` for a float already known to be an integer. -/
def pyFloatToInt : PyFloat → Int
  | .finite n d => n / (d : Int)
  | _ => 0

/-- `_maybe_convert_to_numeric` (confly.py:241-260).  Non-strings are
returned unchanged.  A string passing `isdigit` is fed to `int()` — which
raises `ValueError` when the digit-like characters are not decimal digits
(e.g. a superscript); this raise is NOT caught by the function's
`try/except`, which only wraps the `float()` call. -/
def maybe_convert_to_numeric : PyVal → Except Exc PyVal
  | .vstr s =>
    if pyIsDigit s then
      match pyIntOfDigits s with
      | some n => .ok (.vint n)
      | none => .error .valueError
    else
      match pyFloatOfString s with
      | some f =>
        if pyFloatIsInteger f then .ok (.vint (pyFloatToInt f))
        else .ok (.vfloat f)
      | none => .ok (.vstr s)
  | v => .ok v

mutual

/-- `_apply_recursively` (confly.py:262-278): apply `f` to every non-dict,
non-list value of a nested structure; a raise inside `f` propagates
(left-to-right evaluation order). Tuples become lists, as in the source. -/
def apply_recursively (f : PyVal → Except Exc PyVal) : Value → Except Exc Value
  | .vscal p =>
    match f p with
    | .ok q => .ok (.vscal q)
    | .error e => .error e
  | .vseq l =>
    match applyRecList f l with
    | .ok l' => .ok (.vseq l')
    | .error e => .error e
  | .vmap m =>
    match applyRecMap f m with
    | .ok m' => .ok (.vmap m')
    | .error e => .error e

/-- Sequence case of `_apply_recursively`. -/
def applyRecList (f : PyVal → Except Exc PyVal) : List Value → Except Exc (List Value)
  | [] => .ok []
  | v :: t =>
    match apply_recursively f v with
    | .error e => .error e
    | .ok v' =>
      match applyRecList f t with
      | .error e => .error e
      | .ok t' => .ok (v' :: t')

/-- Mapping case of `_apply_recursively`. -/
def applyRecMap (f : PyVal → Except Exc PyVal) :
    List (String × Value) → Except Exc (List (String × Value))
  | [] => .ok []
  | (k, v) :: t =>
    match apply_recursively f v with
    | .error e => .error e
    | .ok v' =>
      match applyRecMap f t with
      | .error e => .error e
      | .ok t' => .ok ((k, v') :: t')

end

/-! ## The `operator` module and `_interpolate_math` -/

/-- `hasattr(operator, name)` for the public attributes of the Python 3
`operator` module (module-level dunder attributes such as `__name__` are
omitted; no claim involves an operator name with a double underscore).
Note the module has `truediv`/`floordiv` but no `div`. -/
def hasattrOperator (name : String) : Bool :=
  name ∈ ([
    "abs", "add", "and_", "attrgetter", "call", "concat", "contains",
    "countOf", "delitem", "eq", "floordiv", "ge", "getitem", "gt",
    "iadd", "iand", "iconcat", "ifloordiv", "ilshift", "imatmul",
    "imod", "imul", "index", "indexOf", "inv", "invert", "ior", "ipow",
    "irshift", "is_", "is_not", "isub", "itemgetter", "itruediv",
    "ixor", "le", "length_hint", "lshift", "lt", "matmul",
    "methodcaller", "mod", "mul", "ne", "neg", "not_", "or_", "pos",
    "pow", "rshift", "setitem", "sub", "truediv", "truth", "xor"
  ] : List String)

/-- Python `bool` is an `int` subtype: arithmetic coerces it first. -/
def boolToInt : PyVal → PyVal
  | .vbool b => .vint (if b then 1 else 0)
  | v => v

/-- Exact addition on modelled floats (special values propagate as in
IEEE; finite arithmetic is exact — rounding is outside every claim). -/
def pfAdd : PyFloat → PyFloat → PyFloat
  | .finite a da, .finite b db => .finite (a * (db : Int) + b * (da : Int)) (da * db)
  | .nan, _ => .nan
  | _, .nan => .nan
  | .inf a, .inf b => if a = b then .inf a else .nan
  | .inf a, .finite _ _ => .inf a
  | .finite _ _, .inf b => .inf b

/-- Exact multiplication on modelled floats. -/
def pfMul : PyFloat → PyFloat → PyFloat
  | .finite a da, .finite b db => .finite (a * b) (da * db)
  | .nan, _ => .nan
  | _, .nan => .nan
  | .inf a, .inf b => .inf (a != b)
  | .inf a, .finite n _ => if n = 0 then .nan else .inf (a != decide (n < 0))
  | .finite n _, .inf b => if n = 0 then .nan else .inf (b != decide (n < 0))

/-- `operator.add` (confly feeds it the converted operand list). -/
def pyAdd (x y : PyVal) : Except Exc PyVal :=
  match boolToInt x, boolToInt y with
  | .vint a, .vint b => .ok (.vint (a + b))
  | .vint a, .vfloat f => .ok (.vfloat (pfAdd (.finite a 1) f))
  | .vfloat f, .vint b => .ok (.vfloat (pfAdd f (.finite b 1)))
  | .vfloat f, .vfloat g => .ok (.vfloat (pfAdd f g))
  | .vstr a, .vstr b => .ok (.vstr (a ++ b))
  | _, _ => .error .typeError

/-- `operator.sub`. -/
def pySub (x y : PyVal) : Except Exc PyVal :=
  match boolToInt x, boolToInt y with
  | .vint a, .vint b => .ok (.vint (a - b))
  | .vint a, .vfloat f => .ok (.vfloat (pfAdd (.finite a 1) (pfMul (.finite (-1) 1) f)))
  | .vfloat f, .vint b => .ok (.vfloat (pfAdd f (.finite (-b) 1)))
  | .vfloat f, .vfloat g => .ok (.vfloat (pfAdd f (pfMul (.finite (-1) 1) g)))
  | _, _ => .error .typeError

/-- Python `s * n` / `n * s` string repetition. -/
def strRepeat (s : String) (n : Int) : String :=
  String.mk (List.flatten (List.replicate n.toNat s.data))

/-- `operator.mul`. -/
def pyMul (x y : PyVal) : Except Exc PyVal :=
  match boolToInt x, boolToInt y with
  | .vint a, .vint b => .ok (.vint (a * b))
  | .vint a, .vfloat f => .ok (.vfloat (pfMul (.finite a 1) f))
  | .vfloat f, .vint b => .ok (.vfloat (pfMul f (.finite b 1)))
  | .vfloat f, .vfloat g => .ok (.vfloat (pfMul f g))
  | .vstr s, .vint n => .ok (.vstr (strRepeat s n))
  | .vint n, .vstr s => .ok (.vstr (strRepeat s n))
  | _, _ => .error .typeError

/-- `operator.pow` (int base and exponent; a negative exponent makes a
float, `0 ** negative` raises `ZeroDivisionError`). Float bases are out of
scope of every claim and map to `nan`. -/
def pyPow (x y : PyVal) : Except Exc PyVal :=
  match boolToInt x, boolToInt y with
  | .vint a, .vint b =>
    if 0 ≤ b then .ok (.vint (a ^ b.toNat))
    else if a = 0 then .error .zeroDivisionError
    else
      -- 1 / a^k exactly, with a positive denominator
      let p : Int := a ^ (-b).toNat
      .ok (.vfloat (if 0 ≤ p then .finite 1 p.toNat else .finite (-1) (-p).toNat))
  | .vfloat _, _ => .ok (.vfloat .nan)
  | _, .vfloat _ => .ok (.vfloat .nan)
  | _, _ => .error .typeError

/-- `operator.truediv`. -/
def pyTruediv (x y : PyVal) : Except Exc PyVal :=
  match boolToInt x, boolToInt y with
  | .vint a, .vint b =>
    if b = 0 then .error .zeroDivisionError
    else if 0 < b then .ok (.vfloat (.finite a b.toNat))
    else .ok (.vfloat (.finite (-a) (-b).toNat))
  | _, _ => .error .typeError

/-- `operator.floordiv` (Python floor division). -/
def pyFloordiv (x y : PyVal) : Except Exc PyVal :=
  match boolToInt x, boolToInt y with
  | .vint a, .vint b =>
    if b = 0 then .error .zeroDivisionError else .ok (.vint (Int.fdiv a b))
  | _, _ => .error .typeError

/-- `operator.mod` (Python sign convention). -/
def pyMod (x y : PyVal) : Except Exc PyVal :=
  match boolToInt x, boolToInt y with
  | .vint a, .vint b =>
    if b = 0 then .error .zeroDivisionError else .ok (.vint (Int.fmod a b))
  | _, _ => .error .typeError

/-- `getattr(operator, op)` as a binary function, for the arithmetic
names the spec's claims exercise.  The remaining `operator` attributes
(comparison, unary, itemgetter, ...) are not two-argument arithmetic
callables; feeding them to `reduce` over these operand lists is outside
every claim and is modelled as a `TypeError`. -/
def pyBinOp (op : String) : PyVal → PyVal → Except Exc PyVal :=
  if op = "add" then pyAdd
  else if op = "sub" then pySub
  else if op = "mul" then pyMul
  else if op = "pow" then pyPow
  else if op = "truediv" then pyTruediv
  else if op = "floordiv" then pyFloordiv
  else if op = "mod" then pyMod
  else fun _ _ => .error .typeError

/-- The fold of `functools.reduce`: apply `f` left-to-right, stopping at
the first raise. -/
def pyReduceGo (f : PyVal → PyVal → Except Exc PyVal) (acc : PyVal) :
    List PyVal → Except Exc PyVal
  | [] => .ok acc
  | y :: t =>
    match f acc y with
    | .ok z => pyReduceGo f z t
    | .error e => .error e

/-- `functools.reduce(f, l)`: raises `TypeError` on an empty sequence,
otherwise left-folds `f` with the head as initial value. -/
def pyReduce (f : PyVal → PyVal → Except Exc PyVal) :
    List PyVal → Except Exc PyVal
  | [] => .error .typeError
  | x :: t => pyReduceGo f x t

/-- Python `str(v)`.  The float case is an exact placeholder form; no
claim depends on float repr. -/
def pyStrOf : PyVal → String
  | .vint n => toString n
  | .vstr s => s
  | .vbool b => if b then "True" else "False"
  | .vnone => "None"
  | .vfloat (.finite n d) => toString n ++ "/" ++ toString d
  | .vfloat (.inf neg) => if neg then "-inf" else "inf"
  | .vfloat .nan => "nan"

/-- `_interpolate_math` (confly.py:193-198): split the raw argument on
commas, strip each operand, numerically convert each (`_apply_recursively`
over the operand list — a conversion raise propagates), reduce with the
named `operator` attribute, and render the result with `str`. -/
def interpolate_math (op : String) (args : String) : Except Exc String := do
  let opnds := (pySplit args ',').map pyStrip
  let vals ← opnds.mapM (fun s => maybe_convert_to_numeric (.vstr s))
  let r ← pyReduce (pyBinOp op) vals
  return pyStrOf r

/-! ## `_interpolate_var`, `_interpolate_cfg`, `_interpolate_env` -/

/-- The key-path walk of `_interpolate_var` (confly.py:171-174).  Each
step runs Python `key not in current` / `current[key]`:
* on a dict, ordinary key membership and lookup;
* on a list, `key in list` is element equality against the string and a
  hit then indexes the list with a string (`TypeError`);
* on a string, `key in s` is substring containment and a hit then indexes
  the string with a string (`TypeError`);
* on any other scalar, the `in` operator itself raises `TypeError`.
A miss raises `RuntimeError("Interpolation failed ...")`. -/
def varWalk : List String → Value → Except Exc Value
  | [], v => .ok v
  | k :: ks, v =>
    match v with
    | .vmap m =>
      match lookupD m k with
      | some u => varWalk ks u
      | none => .error .runtimeError
    | .vseq l =>
      if l.any (fun w =>
          match w with
          | .vscal (.vstr s) => s = k
          | _ => false) then .error .typeError
      else .error .runtimeError
    | .vscal (.vstr s) =>
      if containsSubL s.data k.data then .error .typeError
      else .error .runtimeError
    | .vscal _ => .error .typeError

/-- `_interpolate_var` (confly.py:168-175): split the argument on dots and
walk `self.config` from the root. -/
def interpolate_var (root : Value) (arg : String) : Except Exc Value :=
  varWalk (pySplit arg '.') root

/-- `dict.update` with a sequence argument: each element must be a
key/value pair (modelled for pairs with a string key, the only shape a
YAML document can produce that Python would accept); anything else raises.
No claim exercises this branch. -/
def seqUpdate (acc : List (String × Value)) :
    List Value → Except Exc (List (String × Value))
  | [] => .ok acc
  | .vseq [.vscal (.vstr k), v] :: t => seqUpdate (dictInsert acc k v) t
  | _ :: _ => .error .valueError

/-- The loop of `_interpolate_cfg` (confly.py:180-188) over the list of
include names: load each, `config.update(...)` a dict (a list would be
treated as an iterable of key/value pairs — `seqUpdate` above), return
any scalar immediately. -/
def cfgGo (load : String → Except Exc Value) :
    List String → List (String × Value) → Except Exc Value
  | [], acc => .ok (.vmap acc)
  | nm :: rest, acc =>
    match load nm with
    | .error e => .error e
    | .ok (.vmap kvs) => cfgGo load rest (dictUpdate acc kvs)
    | .ok (.vseq l) =>
      match seqUpdate acc l with
      | .ok acc' => cfgGo load rest acc'
      | .error e => .error e
    | .ok v => .ok v

/-- `_interpolate_cfg` (confly.py:177-188): remove every space from the
argument, split on commas, and fold the loads.  `load` stands for
`self._load_conf(self.config_dir / name)` — the external Document Loader
applied to the name resolved against the base directory. -/
def interpolate_cfg (load : String → Except Exc Value) (arg : String) :
    Except Exc Value :=
  cfgGo load (pySplit (String.mk (arg.data.filter (fun c => c ≠ ' '))) ',') []

/-- `os.path.expandvars` (posixpath): scan for `$name` (ASCII `\w+`) or
`$\x7b...\x7d` references; a name defined in the environment is replaced by
its value (the value is not re-scanned), an undefined name's reference text
is kept verbatim. -/
def expandVarsL (env : String → Option String) : List Char → List Char
  | [] => []
  | [c] => if c ≠ '$' then [c] else ['$']
  | c :: d :: r2 =>
    if c ≠ '$' then c :: expandVarsL env (d :: r2)
    else if d = '\x7b' then
      let inner := r2.takeWhile (fun x => x ≠ '\x7d')
      if inner.length < r2.length then
        -- a closing brace exists; everything after it remains to scan
        match env (String.mk inner) with
        | some v => v.data ++ expandVarsL env (r2.drop (inner.length + 1))
        | none =>
          '$' :: '\x7b' :: (inner ++ '\x7d' :: expandVarsL env (r2.drop (inner.length + 1)))
      else '$' :: expandVarsL env (d :: r2)
    else
      let name := (d :: r2).takeWhile isWordChar
      if name.isEmpty then '$' :: expandVarsL env (d :: r2)
      else
        match env (String.mk name) with
        | some v => v.data ++ expandVarsL env ((d :: r2).drop name.length)
        | none => '$' :: (name ++ expandVarsL env ((d :: r2).drop name.length))
termination_by l => l.length
decreasing_by
  all_goals simp_wf
  all_goals omega

/-- `_interpolate_env` (confly.py:190-191):
`os.path.expandvars("$" + arg)`, with `env` the process environment. -/
def interpolate_env (env : String → Option String) (arg : String) : String :=
  String.mk (expandVarsL env ('$' :: arg.data))

/-! ## The expression scanner

Model of the recursive patterns compiled in `__init__` (confly.py:15-39):

    \$\{ (?P<op>\w+) \s*:\s* (?P<arg> (?: [^{}]+ | \{ (?0) \} )* ) \}

(and the `cfg`-only variant, whose `op` group is literally `cfg`).  The
grammar parameter `g` is the accepted operator set: `fun _ => true` for
`general_op_regex`, `(· = "cfg")` for `cfg_regex`.

The match at a fixed position is deterministic: the operator name is the
maximal word-char run, the colon's surrounding spaces are maximal
(space/colon/word classes are disjoint), and the argument scan is forced —
a top-level `\x7d` always ends it (no alternative consumes `\x7d`), a
top-level `\x7b` can only be consumed as `\{ (?0) \}` with the recursive
match itself deterministic.  So `fullmatch` holds exactly when the match
at position 0 consumes the whole string, and `search`/`finditer` return
the match at the leftmost matching position.

The mutual recursion is fueled; callers supply fuel larger than the string
length, which the scan can never exhaust. -/

mutual

/-- Match the whole pattern at the head of `l`.  Returns
`(consumed text, op, arg, rest)` or `none`. -/
def matchExprAux (g : String → Bool) : Nat → List Char → Option (List Char × String × String × List Char)
  | 0, _ => none
  | fuel + 1, l =>
    match l with
    | '$' :: '\x7b' :: rest =>
      let opcs := rest.takeWhile isWordChar
      if opcs.isEmpty then none
      else
        let rest1 := (rest.drop opcs.length).dropWhile isPySpace
        match rest1 with
        | ':' :: rest2 =>
          let rest3 := rest2.dropWhile isPySpace
          match scanArg g fuel rest3 with
          | some (argcs, rest4) =>
            if g (String.mk opcs) then
              some (l.take (l.length - rest4.length), String.mk opcs, String.mk argcs, rest4)
            else none
          | none => none
        | _ => none
    | _ => none

/-- Scan the `arg` group: non-brace characters freely, `\x7b (?0) \x7d`
for a nested brace group; the first unmatched `\x7d` closes the
expression (it is consumed; the returned `rest` follows it). -/
def scanArg (g : String → Bool) : Nat → List Char → Option (List Char × List Char)
  | 0, _ => none
  | fuel + 1, l =>
    match l with
    | [] => none
    | '\x7d' :: rest => some ([], rest)
    | '\x7b' :: rest =>
      match matchExprAux g fuel rest with
      | some (consumed, _, _, rest') =>
        match rest' with
        | '\x7d' :: rest'' =>
          match scanArg g fuel rest'' with
          | some (argcs, rest3) =>
            some ('\x7b' :: (consumed ++ '\x7d' :: argcs), rest3)
          | none => none
        | _ => none
      | none => none
    | c :: rest =>
      match scanArg g fuel rest with
      | some (argcs, rest') => some (c :: argcs, rest')
      | none => none

end

/-- The deterministic match of the pattern at the head of `l` (ample
fuel: every recursive step consumes at least one character). -/
def matchExprFrom (g : String → Bool) (l : List Char) :
    Option (List Char × String × String × List Char) :=
  matchExprAux g (2 * l.length + 2) l

/-- Leftmost match in `l` (regex `search` / first `finditer` element). -/
def scanFrom (g : String → Bool) : List Char → Option (List Char × String × String)
  | [] => none
  | c :: rest =>
    match matchExprFrom g (c :: rest) with
    | some (consumed, o, a, _) => some (consumed, o, a)
    | none => scanFrom g rest

/-- `_contains_expression` (confly.py:145-146): `regex.search`. -/
def contains_expression (g : String → Bool) (s : String) : Bool :=
  (scanFrom g s.data).isSome

/-- `_is_entire_expression` (confly.py:142-143): `regex.fullmatch`. -/
def is_entire_expression (g : String → Bool) (s : String) : Bool :=
  match matchExprFrom g s.data with
  | some (_, _, _, rest) => rest.isEmpty
  | none => false

/-- `_get_expression` (confly.py:148-154): the first `finditer` match as
`(expr, op, arg)`. -/
def get_expression (g : String → Bool) (s : String) :
    Option (String × String × String) :=
  (scanFrom g s.data).map (fun r => (String.mk r.1, r.2.1, r.2.2))

/-- The phase-2 grammar (`general_op_regex`): any `\w+` operator name. -/
def grammarGeneral : String → Bool := fun _ => true

/-- The phase-1 grammar (`cfg_regex`): only the literal operator `cfg`. -/
def grammarCfg : String → Bool := fun o => o = "cfg"

/-! ## `_interpolate` (the two-phase resolver pass) -/

/-- External state of a build: the Document Loader (`_load_conf` applied
under the base directory) and the process environment. -/
structure Ctx where
  load : String → Except Exc Value
  env : String → Option String

/-- `_interpolate_op` (confly.py:156-166): dispatch on the operator name;
an unknown name returns the raw expression text. -/
def interpolate_op (c : Ctx) (root : Value) (expr op arg : String) :
    Except Exc Value :=
  if op = "var" then interpolate_var root arg
  else if op = "cfg" then interpolate_cfg c.load arg
  else if op = "env" then .ok (.vscal (.vstr (interpolate_env c.env arg)))
  else if hasattrOperator op then
    match interpolate_math op arg with
    | .ok r => .ok (.vscal (.vstr r))
    | .error e => .error e
  else .ok (.vscal (.vstr expr))

mutual

/-- `_interpolate` (confly.py:124-140) on a value, under grammar `g` with
root tree `root` (the `self.config` that `_interpolate_var` reads).  The
fuel bounds the recursion/loop steps; `none` means the bound was hit —
a result that is `none` for every fuel is a diverging execution. -/
def interpolate (c : Ctx) (g : String → Bool) (root : Value) :
    Nat → Value → Option (Except Exc Value)
  | 0, _ => none
  | n + 1, .vmap m =>
    match interpolateMap c g root n m with
    | none => none
    | some (.error e) => some (.error e)
    | some (.ok m') => some (.ok (.vmap m'))
  | n + 1, .vseq l =>
    match interpolateList c g root n l with
    | none => none
    | some (.error e) => some (.error e)
    | some (.ok l') => some (.ok (.vseq l'))
  | n + 1, .vscal (.vstr s) =>
    if is_entire_expression g s then
      match get_expression g s with
      | some (expr, op, arg) => some (interpolate_op c root expr op arg)
      | none => some (.ok (.vscal (.vstr s)))
    else if contains_expression g s then
      match interpolateLoop c g root n s with
      | none => none
      | some (.error e) => some (.error e)
      | some (.ok s') => some (.ok (.vscal (.vstr s')))
    else some (.ok (.vscal (.vstr s)))
  | _ + 1, v => some (.ok v)

/-- Dict case of `_interpolate`: rebuild the mapping value by value.
(The fuel ticks on every recursive call so that the whole mutual block is
structurally recursive on it.) -/
def interpolateMap (c : Ctx) (g : String → Bool) (root : Value) :
    Nat → List (String × Value) → Option (Except Exc (List (String × Value)))
  | _, [] => some (.ok [])
  | 0, _ :: _ => none
  | n + 1, (k, v) :: t =>
    match interpolate c g root n v with
    | none => none
    | some (.error e) => some (.error e)
    | some (.ok v') =>
      match interpolateMap c g root n t with
      | none => none
      | some (.error e) => some (.error e)
      | some (.ok t') => some (.ok ((k, v') :: t'))

/-- List/tuple case of `_interpolate`. -/
def interpolateList (c : Ctx) (g : String → Bool) (root : Value) :
    Nat → List Value → Option (Except Exc (List Value))
  | _, [] => some (.ok [])
  | 0, _ :: _ => none
  | n + 1, v :: t =>
    match interpolate c g root n v with
    | none => none
    | some (.error e) => some (.error e)
    | some (.ok v') =>
      match interpolateList c g root n t with
      | none => none
      | some (.error e) => some (.error e)
      | some (.ok t') => some (.ok (v' :: t'))

/-- The find-and-replace `while` loop of `_interpolate`
(confly.py:134-137): while the string contains an expression, resolve the
first one recursively and `str.replace` its first occurrence by the
result (a non-string result makes `str.replace` raise `TypeError`). -/
def interpolateLoop (c : Ctx) (g : String → Bool) (root : Value) :
    Nat → String → Option (Except Exc String)
  | 0, obj => if contains_expression g obj then none else some (.ok obj)
  | m + 1, obj =>
    if contains_expression g obj then
      match get_expression g obj with
      | none => some (.ok obj)
      | some (expr, _, _) =>
        match interpolate c g root m (.vscal (.vstr expr)) with
        | none => none
        | some (.error e) => some (.error e)
        | some (.ok (.vscal (.vstr r))) =>
          interpolateLoop c g root m (pyReplaceFirst obj expr r)
        | some (.ok _) => some (.error .typeError)
    else some (.ok obj)

end

/-! ## `_parse_args` and `_update_parameters` -/

/-- `_parse_args` (confly.py:96-104) over an explicit argument list (the
`cli` branch that appends `sys.argv` is process state outside the model):
a token containing `=` is a parameter; otherwise a token containing `--`
anywhere becomes the parameter `token[2:] + "=True"`; anything else is a
config path. -/
def parse_args (args : List String) : List String × List String :=
  args.foldl
    (fun acc arg =>
      if containsSubL arg.data ['='] then (acc.1, acc.2 ++ [arg])
      else if containsSubL arg.data ['-', '-'] then
        (acc.1, acc.2 ++ [String.mk (arg.data.drop 2) ++ "=True"])
      else (acc.1 ++ [arg], acc.2))
    ([], [])

/-- The key-path walk of `_update_parameters` (confly.py:214-219),
functionally: walk/auto-create intermediate dicts and set the leaf to the
raw string value.  On a non-dict intermediate every Python path raises
`TypeError` before anything is set (`key not in 5` raises; on a
list/string, the subsequent string-indexing or item assignment raises). -/
def setPath (v : Value) (keys : List String) (value : String) :
    Except Exc Value :=
  match keys with
  | [] => .ok v
  | [k] =>
    match v with
    | .vmap m => .ok (.vmap (dictInsert m k (.vscal (.vstr value))))
    | _ => .error .typeError
  | k :: ks =>
    match v with
    | .vmap m =>
      let child := (lookupD m k).getD (.vmap [])
      match setPath child ks value with
      | .ok child' => .ok (.vmap (dictInsert m k child'))
      | .error e => .error e
    | _ => .error .typeError

/-- One parameter token of `_update_parameters` (confly.py:212-219):
`key_path, value = para.split("=")` — tuple unpacking raises `ValueError`
unless the split has exactly two parts — then the key walk. -/
def applyOverride (cfg : Value) (para : String) : Except Exc Value :=
  match pySplit para '=' with
  | [kp, v] => setPath cfg (pySplit kp '.') v
  | _ => .error .valueError

/-- `_update_parameters` (confly.py:200-220): apply the parameter tokens
in order; a raise aborts. -/
def update_parameters (cfg : Value) (paras : List String) : Except Exc Value :=
  paras.foldlM applyOverride cfg

/-! ## Auxiliary specification-side definitions for the claims -/

/-- A dummy external context: no include files, an empty environment (no
claim below that uses it exercises the `cfg` or `env` operator). -/
def ctx0 : Ctx := ⟨fun _ => .error .fileNotFoundError, fun _ => none⟩

/-- Pure key-path lookup: the value at a dot-path when every segment is a
present mapping key, `none` otherwise. -/
def findPath : List String → Value → Option Value
  | [], v => some v
  | k :: ks, v =>
    match v with
    | .vmap m =>
      match lookupD m k with
      | some u => findPath ks u
      | none => none
    | _ => none

/-- The var walk stays within mappings: every container the walk actually
inspects is a mapping (the walk may end early at an absent key). -/
def walkInMappings : List String → Value → Bool
  | [], _ => true
  | k :: ks, v =>
    match v with
    | .vmap m =>
      match lookupD m k with
      | some u => walkInMappings ks u
      | none => true
    | _ => false

/-! ## Claim C3 -/

/-- Claim C3 (confirmed): under the full phase-2 grammar,
`$\x7badd: 1, $\x7badd: 2, 3\x7d\x7d` resolves to the string `"6"`, which the
numeric coercion pass turns into the number 6; a depth-3 nesting resolves
likewise (to 10); and the scanner locates the inner expression first, so
it is resolved before the outer one is evaluated. -/
theorem claim_C3_nested_arithmetic :
    interpolate ctx0 grammarGeneral (.vmap []) 20
        (.vscal (.vstr "$\x7badd: 1, $\x7badd: 2, 3\x7d\x7d")) =
      some (.ok (.vscal (.vstr "6"))) ∧
    apply_recursively maybe_convert_to_numeric (.vscal (.vstr "6")) =
      .ok (.vscal (.vint 6)) ∧
    interpolate ctx0 grammarGeneral (.vmap []) 30
        (.vscal (.vstr "$\x7badd: 1, $\x7badd: 2, $\x7badd: 3, 4\x7d\x7d\x7d")) =
      some (.ok (.vscal (.vstr "10"))) ∧
    apply_recursively maybe_convert_to_numeric (.vscal (.vstr "10")) =
      .ok (.vscal (.vint 10)) ∧
    get_expression grammarGeneral "$\x7badd: 1, $\x7badd: 2, 3\x7d\x7d" =
      some ("$\x7badd: 2, 3\x7d", "add", "2, 3") :=
  ⟨rfl, rfl, rfl, rfl, rfl⟩

/-! ## Claim C1 -/

/-- Claim C1 (refuted): the phase-2 pass over the tree
`\x7ba: "$\x7badd:1,2\x7d", b: "$\x7bvar:a\x7d"\x7d` leaves at key `b` the scalar
string `"$\x7badd:1,2\x7d"`, which still contains a well-formed expression
with the recognized operator `add` — because `_interpolate`'s
entire-string branch returns the var lookup's value without re-scanning
(the lookup reads the pre-pass tree, where `a` is still unresolved). -/
theorem claim_C1_counterexample :
    interpolate ctx0 grammarGeneral
        (.vmap [("a", .vscal (.vstr "$\x7badd:1,2\x7d")),
                ("b", .vscal (.vstr "$\x7bvar:a\x7d"))]) 20
        (.vmap [("a", .vscal (.vstr "$\x7badd:1,2\x7d")),
                ("b", .vscal (.vstr "$\x7bvar:a\x7d"))]) =
      some (.ok (.vmap [("a", .vscal (.vstr "3")),
                        ("b", .vscal (.vstr "$\x7badd:1,2\x7d"))])) ∧
    contains_expression grammarGeneral "$\x7badd:1,2\x7d" = true ∧
    get_expression grammarGeneral "$\x7badd:1,2\x7d" =
      some ("$\x7badd:1,2\x7d", "add", "1,2") ∧
    hasattrOperator "add" = true :=
  ⟨rfl, rfl, rfl, rfl⟩

/-- Claim C1 (amended): an expression embedded among surrounding text is
resolved by repeated find-and-replace re-scanning — including expressions
introduced by a var substitution — but a var expression that is the entire
string value returns the located value verbatim, without re-scanning, so
unresolved expressions inside it survive the pass. -/
theorem claim_C1_amended :
    interpolate ctx0 grammarGeneral
        (.vmap [("a", .vscal (.vstr "$\x7badd:1,2\x7d"))]) 20
        (.vscal (.vstr "x$\x7bvar:a\x7dy")) =
      some (.ok (.vscal (.vstr "x3y"))) ∧
    interpolate ctx0 grammarGeneral
        (.vmap [("a", .vscal (.vstr "$\x7badd:1,2\x7d"))]) 20
        (.vscal (.vstr "$\x7bvar:a\x7d")) =
      some (.ok (.vscal (.vstr "$\x7badd:1,2\x7d"))) ∧
    contains_expression grammarGeneral "$\x7badd:1,2\x7d" = true :=
  ⟨rfl, rfl, rfl⟩

/-! ## Claim C5 -/

/-- Claim C5 (refuted for `div`): the Python 3 `operator` module has no
attribute `div`, so `_interpolate_op` does not dispatch it as arithmetic:
`$\x7bdiv: 6, 3\x7d` is returned as literal unresolved text instead of the
division result. -/
theorem claim_C5_counterexample :
    hasattrOperator "div" = false ∧
    interpolate ctx0 grammarGeneral (.vmap []) 20
        (.vscal (.vstr "$\x7bdiv: 6, 3\x7d")) =
      some (.ok (.vscal (.vstr "$\x7bdiv: 6, 3\x7d"))) ∧
    interpolate_op ctx0 (.vmap []) "$\x7bdiv: 6, 3\x7d" "div" "6, 3" =
      .ok (.vscal (.vstr "$\x7bdiv: 6, 3\x7d")) :=
  ⟨rfl, rfl, rfl⟩

/-! ## Claim C4 -/

/-- Claim C4 (refuted): an `add` whose operands are all non-numeric
strings does not fail — `functools.reduce(operator.add, ...)` string
concatenation produces a value: `$\x7badd: a, b\x7d` evaluates to `"ab"`. -/
theorem claim_C4_counterexample :
    interpolate_math "add" "a, b" = .ok "ab" ∧
    interpolate ctx0 grammarGeneral (.vmap []) 20
        (.vscal (.vstr "$\x7badd: a, b\x7d")) =
      some (.ok (.vscal (.vstr "ab"))) :=
  ⟨rfl, rfl⟩

/-! ## Claim C2

The find-and-replace loop does NOT terminate on a string that embeds an
unrecognized-operator expression among surrounding text: the expression
resolves to itself, `str.replace` leaves the string unchanged, and the
`while` condition stays true.  The next lemmas prove the loop yields
`none` at every fuel bound — the fuel-indexed semantics of divergence. -/

/-- At any nonzero fuel, resolving `"$\x7bfoo: 1\x7d"` (an entire expression
whose operator is unrecognized) returns the expression text itself; the
branch never consumes fuel. -/
theorem interpolate_foo_self (m : Nat) :
    interpolate ctx0 grammarGeneral (.vmap []) (m + 1)
        (.vscal (.vstr "$\x7bfoo: 1\x7d")) =
      some (.ok (.vscal (.vstr "$\x7bfoo: 1\x7d"))) := rfl

/-- The find-and-replace loop on `"a $\x7bfoo: 1\x7d b"` runs out of any
fuel: each iteration replaces the expression by itself. -/
theorem interpolateLoop_foo_diverges : ∀ n : Nat,
    interpolateLoop ctx0 grammarGeneral (.vmap []) n "a $\x7bfoo: 1\x7d b" = none := by
  intro n
  induction n with
  | zero => rfl
  | succ m ih =>
    cases m with
    | zero => rfl
    | succ k =>
      have hc : contains_expression grammarGeneral "a $\x7bfoo: 1\x7d b" = true := rfl
      have hg : get_expression grammarGeneral "a $\x7bfoo: 1\x7d b" =
          some ("$\x7bfoo: 1\x7d", "foo", "1") := rfl
      have hr : pyReplaceFirst "a $\x7bfoo: 1\x7d b" "$\x7bfoo: 1\x7d" "$\x7bfoo: 1\x7d" =
          "a $\x7bfoo: 1\x7d b" := rfl
      simp only [interpolateLoop, hc, if_true, hg, interpolate_foo_self k, hr]
      exact ih

/-- Claim C2 (code bug): for the scalar string `"a $\x7bfoo: 1\x7d b"` the
phase-2 resolution diverges — at every fuel bound both `_interpolate` and
its inner find-and-replace loop fail to complete — because the
unrecognized-operator expression is replaced by itself (no expression
marker is eliminated), contradicting the claimed termination argument and
the claimed silent propagation of unrecognized operators. -/
theorem claim_C2_nontermination :
    (∀ n : Nat,
      interpolate ctx0 grammarGeneral (.vmap []) n
          (.vscal (.vstr "a $\x7bfoo: 1\x7d b")) = none ∧
      interpolateLoop ctx0 grammarGeneral (.vmap []) n "a $\x7bfoo: 1\x7d b" = none) ∧
    interpolate_op ctx0 (.vmap []) "$\x7bfoo: 1\x7d" "foo" "1" =
      .ok (.vscal (.vstr "$\x7bfoo: 1\x7d")) ∧
    pyReplaceFirst "a $\x7bfoo: 1\x7d b" "$\x7bfoo: 1\x7d" "$\x7bfoo: 1\x7d" =
      "a $\x7bfoo: 1\x7d b" := by
  refine ⟨fun n => ⟨?_, interpolateLoop_foo_diverges n⟩, rfl, rfl⟩
  cases n with
  | zero => rfl
  | succ m =>
    have h1 : is_entire_expression grammarGeneral "a $\x7bfoo: 1\x7d b" = false := rfl
    have hc : contains_expression grammarGeneral "a $\x7bfoo: 1\x7d b" = true := rfl
    simp only [interpolate, h1, hc, Bool.false_eq_true, if_false, if_true,
      interpolateLoop_foo_diverges m]

/-- Claim C2 witness: the divergence theorem instantiated at a concrete
fuel bound. -/
theorem claim_C2_nontermination_witness :
    interpolate ctx0 grammarGeneral (.vmap []) 5
        (.vscal (.vstr "a $\x7bfoo: 1\x7d b")) = none :=
  (claim_C2_nontermination.1 5).1

/-! ## Claims C4 and C5, amended -/

/-- Folding an integer operation through `pyReduceGo` when the binary
operation is total on integers. -/
theorem pyReduceGo_int_fold (f : Int → Int → Int)
    (op2 : PyVal → PyVal → Except Exc PyVal)
    (h : ∀ a b : Int, op2 (.vint a) (.vint b) = .ok (.vint (f a b))) :
    ∀ (acc : Int) (ys : List Int),
      pyReduceGo op2 (.vint acc) (ys.map PyVal.vint) =
        .ok (.vint (ys.foldl f acc)) := by
  intro acc ys
  induction ys generalizing acc with
  | nil => rfl
  | cons y t ih => simp only [List.map, List.foldl, pyReduceGo, h, ih]

/-- `operator.pow` on an integer base and a natural exponent. -/
theorem pyPow_int_nat (a : Int) (bn : Nat) :
    pyPow (.vint a) (.vint (bn : Int)) = .ok (.vint (a ^ bn)) := by
  simp [pyPow, boolToInt, Int.natCast_nonneg, Int.toNat_natCast]

/-- Folding `pow` through `pyReduceGo` (natural exponents). -/
theorem pyReduceGo_pow_fold :
    ∀ (a : Int) (ys : List Nat),
      pyReduceGo pyPow (.vint a) (ys.map (fun (n : Nat) => PyVal.vint (n : Int))) =
        .ok (.vint (ys.foldl (fun (x : Int) (b : Nat) => x ^ b) a)) := by
  intro a ys
  induction ys generalizing a with
  | nil => rfl
  | cons y t ih => simp only [List.map, List.foldl, pyReduceGo, pyPow_int_nat, ih]

/-- Claim C4 (amended): an arithmetic expression with a non-coercible
operand does not necessarily fail — Python's operator semantics may
produce a value instead: `add` on two strings concatenates
(`$\x7badd: a, b\x7d` gives `"ab"`) and `mul` on a number and a string
repeats (`$\x7bmul: 2, b\x7d` gives `"bb"`); under `add`, mixing a
numeric operand with a non-numeric string does raise an uncaught
`TypeError` that aborts the build. -/
theorem claim_C4_amended :
    (∀ (n : Int) (s : String),
       pyAdd (.vint n) (.vstr s) = .error .typeError ∧
       pyAdd (.vstr s) (.vint n) = .error .typeError) ∧
    interpolate_math "add" "1, b" = .error .typeError ∧
    interpolate_math "add" "b, 1" = .error .typeError ∧
    interpolate_math "add" "a, b" = .ok "ab" ∧
    interpolate_math "mul" "2, b" = .ok "bb" ∧
    interpolate_math "mul" "b, 3" = .ok "bbb" :=
  ⟨fun _ _ => ⟨rfl, rfl⟩, rfl, rfl, rfl, rfl, rfl⟩

/-- Claim C4 witness: the amended claim at concrete inputs. -/
theorem claim_C4_amended_witness :
    pyAdd (.vint 1) (.vstr "b") = .error .typeError :=
  (claim_C4_amended.1 1 "b").1

/-- Claim C5 (amended): `add`, `sub`, `mul` and `pow` are attributes of
the `operator` module and are dispatched to `_interpolate_math`, which
left-folds the named operation across the operand list and renders the
result with `str`; `div` is not such an attribute (refuted part, see the
counterexample), so only these four of the claimed five names evaluate. -/
theorem claim_C5_amended :
    (∀ op, op ∈ (["add", "sub", "mul", "pow"] : List String) →
       hasattrOperator op = true) ∧
    (∀ (c : Ctx) (root : Value) (e a : String),
       interpolate_op c root e "add" a =
         (match interpolate_math "add" a with
          | .ok r => .ok (.vscal (.vstr r))
          | .error er => .error er) ∧
       interpolate_op c root e "sub" a =
         (match interpolate_math "sub" a with
          | .ok r => .ok (.vscal (.vstr r))
          | .error er => .error er) ∧
       interpolate_op c root e "mul" a =
         (match interpolate_math "mul" a with
          | .ok r => .ok (.vscal (.vstr r))
          | .error er => .error er) ∧
       interpolate_op c root e "pow" a =
         (match interpolate_math "pow" a with
          | .ok r => .ok (.vscal (.vstr r))
          | .error er => .error er)) ∧
    (∀ (x : Int) (xs : List Int),
       pyReduce pyAdd ((x :: xs).map PyVal.vint) =
         .ok (.vint (xs.foldl (fun a b => a + b) x)) ∧
       pyReduce pySub ((x :: xs).map PyVal.vint) =
         .ok (.vint (xs.foldl (fun a b => a - b) x)) ∧
       pyReduce pyMul ((x :: xs).map PyVal.vint) =
         .ok (.vint (xs.foldl (fun a b => a * b) x))) ∧
    (∀ (x : Nat) (xs : List Nat),
       pyReduce pyPow ((x :: xs).map (fun (n : Nat) => PyVal.vint (n : Int))) =
         .ok (.vint (xs.foldl (fun (a : Int) (b : Nat) => a ^ b) (x : Int)))) ∧
    interpolate_math "add" "1, 2, 3" = .ok "6" ∧
    interpolate_math "sub" "10, 3, 2" = .ok "5" ∧
    interpolate_math "mul" "2, 3, 4" = .ok "24" ∧
    interpolate_math "pow" "2, 3" = .ok "8" := by
  refine ⟨?_, fun c root e a => ⟨rfl, rfl, rfl, rfl⟩, ?_, ?_, rfl, rfl, rfl, rfl⟩
  · intro op hop
    simp only [List.mem_cons, List.not_mem_nil, or_false] at hop
    rcases hop with rfl | rfl | rfl | rfl <;> rfl
  · intro x xs
    exact ⟨pyReduceGo_int_fold (fun a b => a + b) pyAdd (fun _ _ => rfl) x xs,
           pyReduceGo_int_fold (fun a b => a - b) pySub (fun _ _ => rfl) x xs,
           pyReduceGo_int_fold (fun a b => a * b) pyMul (fun _ _ => rfl) x xs⟩
  · intro x xs
    exact pyReduceGo_pow_fold (x : Int) xs

/-- Claim C5 witness: the amended claim at concrete inputs. -/
theorem claim_C5_amended_witness :
    hasattrOperator "add" = true ∧
    pyReduce pyAdd ([1, 2, 3].map PyVal.vint) = .ok (.vint 6) :=
  ⟨claim_C5_amended.1 "add" (by simp),
   claim_C5_amended.2.2.1 1 [2, 3] |>.1⟩

/-! ## Claim C9 -/

/-- A successful numeric conversion yields a fixed point of the
conversion: ints and floats convert to themselves, and a string that
stayed a string fails the same branches again. -/
theorem maybe_convert_fix (p q : PyVal)
    (h : maybe_convert_to_numeric p = .ok q) :
    maybe_convert_to_numeric q = .ok q := by
  cases p with
  | vstr s =>
    simp only [maybe_convert_to_numeric] at h
    by_cases hd : pyIsDigit s = true
    · rw [if_pos hd] at h
      cases hi : pyIntOfDigits s with
      | none => rw [hi] at h; exact absurd h (by simp)
      | some n =>
        rw [hi] at h
        simp only [Except.ok.injEq] at h
        subst h
        rfl
    · rw [if_neg hd] at h
      cases hf : pyFloatOfString s with
      | none =>
        rw [hf] at h
        simp only [Except.ok.injEq] at h
        subst h
        simp only [maybe_convert_to_numeric, if_neg hd, hf]
      | some f =>
        simp only [hf] at h
        by_cases hi : pyFloatIsInteger f = true
        · rw [if_pos hi] at h
          simp only [Except.ok.injEq] at h
          subst h
          rfl
        · rw [if_neg hi] at h
          simp only [Except.ok.injEq] at h
          subst h
          rfl
  | vint n => simp only [maybe_convert_to_numeric, Except.ok.injEq] at h; subst h; rfl
  | vfloat f => simp only [maybe_convert_to_numeric, Except.ok.injEq] at h; subst h; rfl
  | vbool b => simp only [maybe_convert_to_numeric, Except.ok.injEq] at h; subst h; rfl
  | vnone => simp only [maybe_convert_to_numeric, Except.ok.injEq] at h; subst h; rfl

mutual

/-- A successful pass of `_apply_recursively` with a leaf function whose
successful outputs are fixed points produces a tree that is itself a
fixed point of the pass. -/
theorem apply_recursively_fix (f : PyVal → Except Exc PyVal)
    (hf : ∀ p q, f p = .ok q → f q = .ok q) :
    ∀ (t u : Value), apply_recursively f t = .ok u →
      apply_recursively f u = .ok u
  | .vscal p, u, h => by
    simp only [apply_recursively] at h ⊢
    cases hfp : f p with
    | error e => rw [hfp] at h; exact absurd h (by simp)
    | ok q =>
      rw [hfp] at h
      simp only [Except.ok.injEq] at h
      subst h
      simp only [apply_recursively, hf p q hfp]
  | .vseq l, u, h => by
    simp only [apply_recursively] at h ⊢
    cases hl : applyRecList f l with
    | error e => rw [hl] at h; exact absurd h (by simp)
    | ok l' =>
      rw [hl] at h
      simp only [Except.ok.injEq] at h
      subst h
      simp only [apply_recursively]
      rw [applyRecList_fix f hf l l' hl]
  | .vmap m, u, h => by
    simp only [apply_recursively] at h ⊢
    cases hm : applyRecMap f m with
    | error e => rw [hm] at h; exact absurd h (by simp)
    | ok m' =>
      rw [hm] at h
      simp only [Except.ok.injEq] at h
      subst h
      simp only [apply_recursively]
      rw [applyRecMap_fix f hf m m' hm]

/-- List version of `apply_recursively_fix`. -/
theorem applyRecList_fix (f : PyVal → Except Exc PyVal)
    (hf : ∀ p q, f p = .ok q → f q = .ok q) :
    ∀ (l l' : List Value), applyRecList f l = .ok l' →
      applyRecList f l' = .ok l'
  | [], l', h => by
    simp only [applyRecList, Except.ok.injEq] at h
    subst h
    rfl
  | v :: t, l', h => by
    simp only [applyRecList] at h
    cases hv : apply_recursively f v with
    | error e => rw [hv] at h; exact absurd h (by simp)
    | ok v' =>
      rw [hv] at h
      cases ht : applyRecList f t with
      | error e => rw [ht] at h; exact absurd h (by simp)
      | ok t' =>
        rw [ht] at h
        simp only [Except.ok.injEq] at h
        subst h
        simp only [applyRecList]
        rw [apply_recursively_fix f hf v v' hv, applyRecList_fix f hf t t' ht]

/-- Mapping version of `apply_recursively_fix`. -/
theorem applyRecMap_fix (f : PyVal → Except Exc PyVal)
    (hf : ∀ p q, f p = .ok q → f q = .ok q) :
    ∀ (m m' : List (String × Value)), applyRecMap f m = .ok m' →
      applyRecMap f m' = .ok m'
  | [], m', h => by
    simp only [applyRecMap, Except.ok.injEq] at h
    subst h
    rfl
  | (k, v) :: t, m', h => by
    simp only [applyRecMap] at h
    cases hv : apply_recursively f v with
    | error e => rw [hv] at h; exact absurd h (by simp)
    | ok v' =>
      rw [hv] at h
      cases ht : applyRecMap f t with
      | error e => rw [ht] at h; exact absurd h (by simp)
      | ok t' =>
        rw [ht] at h
        simp only [Except.ok.injEq] at h
        subst h
        simp only [applyRecMap]
        rw [apply_recursively_fix f hf v v' hv, applyRecMap_fix f hf t t' ht]

end

/-- Claim C9 (code bug): the per-leaf conversion is NOT total — on the
scalar string `"²"` (superscript two) `str.isdigit` answers true but
`int()` raises an uncaught `ValueError`, so the coercion pass aborts; on
the passes that do succeed, the claimed idempotence holds: a successful
output tree is a fixed point of the pass. -/
theorem claim_C9_coercion :
    apply_recursively maybe_convert_to_numeric (.vscal (.vstr "²")) =
      .error .valueError ∧
    pyIsDigit "²" = true ∧
    pyIntOfDigits "²" = none ∧
    (∀ (t u : Value),
      apply_recursively maybe_convert_to_numeric t = .ok u →
      apply_recursively maybe_convert_to_numeric u = .ok u) :=
  ⟨rfl, rfl, rfl, fun t u h =>
    apply_recursively_fix maybe_convert_to_numeric maybe_convert_fix t u h⟩

/-- Claim C9 witness: the idempotence part at a concrete tree. -/
theorem claim_C9_coercion_witness :
    apply_recursively maybe_convert_to_numeric
        (.vmap [("a", .vscal (.vint 3)), ("b", .vscal (.vstr "abc"))]) =
      .ok (.vmap [("a", .vscal (.vint 3)), ("b", .vscal (.vstr "abc"))]) :=
  claim_C9_coercion.2.2.2
    (.vmap [("a", .vscal (.vstr "3.0")), ("b", .vscal (.vstr "abc"))])
    (.vmap [("a", .vscal (.vint 3)), ("b", .vscal (.vstr "abc"))]) rfl

/-! ## Claim C6 -/

/-- Replacing the `k`-entries does not change lookups of other keys. -/
theorem lookupD_dictReplace_ne (d : List (String × Value)) (k : String)
    (v : Value) (q : String) (hq : k ≠ q) :
    lookupD (dictReplace k v d) q = lookupD d q := by
  induction d with
  | nil => rfl
  | cons p t ih =>
    obtain ⟨k0, v0⟩ := p
    simp only [dictReplace]
    by_cases h0 : k0 = k
    · subst h0
      rw [if_pos rfl]
      simp only [lookupD]
      rw [if_neg hq, if_neg hq, ih]
    · rw [if_neg h0]
      simp only [lookupD, ih]

/-- Looking up `k` after replacing the `k`-entries finds the new value
exactly when a `k`-entry existed. -/
theorem lookupD_dictReplace_eq (d : List (String × Value)) (k : String)
    (v : Value) :
    lookupD (dictReplace k v d) k =
      if d.any (fun p => p.1 = k) then some v else none := by
  induction d with
  | nil => rfl
  | cons p t ih =>
    obtain ⟨k0, v0⟩ := p
    simp only [dictReplace, List.any_cons]
    by_cases h0 : k0 = k
    · subst h0
      rw [if_pos rfl]
      simp only [lookupD, if_pos rfl]
      simp
    · rw [if_neg h0]
      simp only [lookupD, if_neg h0, ih]
      have hb : (decide (k0 = k) || t.any fun p => decide (p.1 = k)) =
          (t.any fun p => decide (p.1 = k)) := by
        rw [decide_eq_false_iff_not.mpr h0, Bool.false_or]
      simp only [hb]

/-- Lookup in a list extended with one appended entry. -/
theorem lookupD_append_single (d : List (String × Value)) (k : String)
    (v : Value) (q : String) :
    lookupD (d ++ [(k, v)]) q =
      match lookupD d q with
      | some w => some w
      | none => if k = q then some v else none := by
  induction d with
  | nil => rfl
  | cons p t ih =>
    obtain ⟨k0, v0⟩ := p
    by_cases h0 : k0 = q
    · simp [lookupD, if_pos h0]
    · simp only [List.cons_append, lookupD, if_neg h0]
      exact ih

/-- A key with no entry looks up to `none`. -/
theorem lookupD_eq_none_of_any_eq_false (d : List (String × Value))
    (k : String) (h : d.any (fun p => p.1 = k) = false) :
    lookupD d k = none := by
  induction d with
  | nil => rfl
  | cons p t ih =>
    obtain ⟨k0, v0⟩ := p
    simp only [List.any_cons, Bool.or_eq_false_iff, decide_eq_false_iff_not] at h
    simp only [lookupD, if_neg h.1, ih h.2]

/-- The characterising lookup equation of `dictInsert` (Python
`d[k] = v`). -/
theorem lookupD_dictInsert (d : List (String × Value)) (k : String)
    (v : Value) (q : String) :
    lookupD (dictInsert d k v) q = if k = q then some v else lookupD d q := by
  unfold dictInsert
  by_cases hany : d.any (fun p => p.1 = k) = true
  · rw [if_pos hany]
    by_cases hq : k = q
    · subst hq
      rw [lookupD_dictReplace_eq, if_pos hany, if_pos rfl]
    · rw [lookupD_dictReplace_ne d k v q hq, if_neg hq]
  · rw [if_neg hany, lookupD_append_single]
    by_cases hq : k = q
    · subst hq
      rw [lookupD_eq_none_of_any_eq_false d k (Bool.eq_false_iff.mpr hany)]
    · cases hdq : lookupD d q <;> simp [hq]

/-- Lookup in a shallow merge: the later dict wins on every key it
defines (its keys being unique, as in a Python dict), the earlier dict
answers otherwise. -/
theorem lookupD_dictUpdate (A B : List (String × Value)) (q : String)
    (hB : (B.map Prod.fst).Nodup) :
    lookupD (dictUpdate A B) q =
      match lookupD B q with
      | some w => some w
      | none => lookupD A q := by
  induction B generalizing A with
  | nil => rfl
  | cons p t ih =>
    obtain ⟨kb, vb⟩ := p
    simp only [List.map, List.nodup_cons] at hB
    have step : dictUpdate A ((kb, vb) :: t) = dictUpdate (dictInsert A kb vb) t := rfl
    rw [step, ih (dictInsert A kb vb) hB.2]
    by_cases hq : kb = q
    · subst hq
      have ht : lookupD t kb = none := by
        apply lookupD_eq_none_of_any_eq_false
        rw [Bool.eq_false_iff]
        intro hc
        rw [List.any_eq_true] at hc
        obtain ⟨p, hp, hpk⟩ := hc
        rw [decide_eq_true_eq] at hpk
        exact hB.1 (hpk ▸ List.mem_map_of_mem Prod.fst hp)
      rw [ht]
      simp [lookupD, lookupD_dictInsert]
    · simp only [lookupD, if_neg hq, lookupD_dictInsert]

/-- Updating the empty dict with a duplicate-free dict copies it. -/
theorem dictUpdate_acc_append (A : List (String × Value)) :
    ∀ (acc : List (String × Value)),
      (A.map Prod.fst).Nodup →
      (∀ p ∈ A, acc.any (fun x => x.1 = p.1) = false) →
      dictUpdate acc A = acc ++ A := by
  induction A with
  | nil => intro acc _ _; simp [dictUpdate]
  | cons p t ih =>
    intro acc hnd hfresh
    obtain ⟨k, v⟩ := p
    simp only [List.map, List.nodup_cons] at hnd
    have h1 : dictInsert acc k v = acc ++ [(k, v)] := by
      unfold dictInsert
      rw [if_neg]
      rw [hfresh (k, v) (List.mem_cons_self _ _)]
      simp
    have step : dictUpdate acc ((k, v) :: t) = dictUpdate (dictInsert acc k v) t := rfl
    rw [step, h1, ih (acc ++ [(k, v)]) hnd.2]
    · simp
    · intro p hp
      simp only [List.any_append, Bool.or_eq_false_iff]
      refine ⟨hfresh p (List.mem_cons_of_mem _ hp), ?_⟩
      simp only [List.any_cons, List.any_nil, Bool.or_false, decide_eq_false_iff_not]
      intro hkp
      exact hnd.1 (hkp ▸ List.mem_map_of_mem Prod.fst hp)

/-- `config = \x7b\x7d; config.update(A)` gives back `A`. -/
theorem dictUpdate_nil (A : List (String × Value))
    (hA : (A.map Prod.fst).Nodup) : dictUpdate [] A = A := by
  rw [dictUpdate_acc_append A [] hA (fun p _ => rfl)]
  rfl

/-- Claim C6 (confirmed): `$\x7bcfg: ...\x7d` merges the loaded mapping
documents left-to-right shallowly — the combined dict is
`dictUpdate A B`, on which lookups prefer the later document and only
top-level keys are overwritten — a scalar load short-circuits the rest of
the include list, and the spec's `A`/`B` example merges to
`\x7bx:1, y:2, z:2\x7d`. -/
theorem claim_C6_cfg_merge :
    (∀ (load : String → Except Exc Value) (a b : String)
       (A B : List (String × Value)),
       load a = .ok (.vmap A) → load b = .ok (.vmap B) →
       (A.map Prod.fst).Nodup → (B.map Prod.fst).Nodup →
       cfgGo load [a, b] [] = .ok (.vmap (dictUpdate A B)) ∧
       ∀ q, lookupD (dictUpdate A B) q =
         (match lookupD B q with
          | some w => some w
          | none => lookupD A q)) ∧
    (∀ (load : String → Except Exc Value) (nm : String) (rest : List String)
       (acc : List (String × Value)) (p : PyVal),
       load nm = .ok (.vscal p) →
       cfgGo load (nm :: rest) acc = .ok (.vscal p)) ∧
    interpolate_cfg
        (fun s =>
          if s = "A" then
            .ok (.vmap [("x", .vscal (.vint 1)), ("y", .vscal (.vint 1))])
          else if s = "B" then
            .ok (.vmap [("y", .vscal (.vint 2)), ("z", .vscal (.vint 2))])
          else .error .fileNotFoundError) "A, B" =
      .ok (.vmap [("x", .vscal (.vint 1)), ("y", .vscal (.vint 2)),
                  ("z", .vscal (.vint 2))]) := by
  refine ⟨?_, ?_, rfl⟩
  · intro load a b A B ha hb hA hB
    constructor
    · simp only [cfgGo, ha, hb, dictUpdate_nil A hA]
    · intro q
      exact lookupD_dictUpdate A B q hB
  · intro load nm rest acc p h
    simp only [cfgGo, h]

/-- Claim C6 witness: the merge part and the scalar short-circuit at
concrete inputs. -/
theorem claim_C6_cfg_merge_witness :
    cfgGo
        (fun s =>
          if s = "A" then
            .ok (.vmap [("x", .vscal (.vint 1)), ("y", .vscal (.vint 1))])
          else if s = "B" then
            .ok (.vmap [("y", .vscal (.vint 2)), ("z", .vscal (.vint 2))])
          else .error .fileNotFoundError) ["A", "B"] [] =
      .ok (.vmap (dictUpdate [("x", .vscal (.vint 1)), ("y", .vscal (.vint 1))]
                             [("y", .vscal (.vint 2)), ("z", .vscal (.vint 2))])) ∧
    cfgGo (fun _ => .ok (.vscal (.vstr "leaf"))) ["A", "B"] [] =
      .ok (.vscal (.vstr "leaf")) :=
  ⟨(claim_C6_cfg_merge.1 _ "A" "B" _ _ rfl rfl (by decide) (by decide)).1,
   claim_C6_cfg_merge.2.1 _ "A" ["B"] [] (.vstr "leaf") rfl⟩

/-! ## Claim C7 -/

/-- On walks that stay within mappings, `_interpolate_var`'s loop is
exactly pure path lookup, raising the UndefinedVariable `RuntimeError`
precisely when a segment is absent. -/
theorem varWalk_spec : ∀ (ks : List String) (v : Value),
    walkInMappings ks v = true →
    varWalk ks v =
      (match findPath ks v with
       | some u => .ok u
       | none => .error .runtimeError) := by
  intro ks
  induction ks with
  | nil => intro v _; rfl
  | cons k t ih =>
    intro v hw
    cases v with
    | vscal p => exact absurd hw (by simp [walkInMappings])
    | vseq l => exact absurd hw (by simp [walkInMappings])
    | vmap m =>
      simp only [walkInMappings] at hw
      simp only [varWalk, findPath]
      cases hl : lookupD m k with
      | none => rfl
      | some u =>
        rw [hl] at hw
        simp only [hl]
        exact ih u hw

/-- Claim C7 (confirmed): a var expression whose dot-path walks through
mappings returns the located value when every segment is present and
raises the UndefinedVariable error (`RuntimeError`) when some segment is
absent at any level. -/
theorem claim_C7_var_lookup (root : Value) (path : String)
    (h : walkInMappings (pySplit path '.') root = true) :
    interpolate_var root path =
      (match findPath (pySplit path '.') root with
       | some u => .ok u
       | none => .error .runtimeError) :=
  varWalk_spec (pySplit path '.') root h

/-- Claim C7 witness: the spec's own example (a missing key aborts) and a
present two-segment path. -/
theorem claim_C7_var_lookup_witness :
    interpolate_var (.vmap [("a", .vscal (.vint 1))]) "missing" =
      .error .runtimeError ∧
    interpolate_var (.vmap [("a", .vmap [("b", .vscal (.vint 2))])]) "a.b" =
      .ok (.vscal (.vint 2)) :=
  ⟨claim_C7_var_lookup (.vmap [("a", .vscal (.vint 1))]) "missing" rfl,
   claim_C7_var_lookup (.vmap [("a", .vmap [("b", .vscal (.vint 2))])]) "a.b" rfl⟩

/-! ## Claim C8 -/

/-- A list all of whose characters satisfy `p` is its own `takeWhile`. -/
theorem takeWhile_eq_self_of_all (p : Char → Bool) :
    ∀ (l : List Char), l.all p = true → l.takeWhile p = l := by
  intro l h
  induction l with
  | nil => rfl
  | cons c t ih =>
    simp only [List.all_cons, Bool.and_eq_true] at h
    simp only [List.takeWhile_cons, h.1, if_true, ih h.2]

/-- Claim C8 (confirmed): `_interpolate_env` on a (word-character) name
returns the process environment's value when the variable is defined, and
the literal unexpanded shell-style reference `"$" ++ name` when it is
undefined — never a failure. -/
theorem claim_C8_env (env : String → Option String) (name : String)
    (h1 : name.data ≠ []) (h2 : name.data.all isWordChar = true) :
    interpolate_env env name =
      (match env name with
       | some v => v
       | none => "$" ++ name) := by
  obtain ⟨c, cs, hd⟩ : ∃ c cs, name.data = c :: cs := by
    cases hnd : name.data with
    | nil => exact absurd hnd h1
    | cons c cs => exact ⟨c, cs, rfl⟩
  have hall : (c :: cs).all isWordChar = true := hd ▸ h2
  have hcword : isWordChar c = true := by
    simp only [List.all_cons, Bool.and_eq_true] at hall
    exact hall.1
  have hcne : ¬c = '\x7b' := by
    intro hc
    rw [hc] at hcword
    exact absurd hcword (by decide)
  have hmkname : String.mk (c :: cs) = name := by rw [← hd]
  unfold interpolate_env
  rw [hd]
  simp only [expandVarsL]
  rw [if_neg (by decide : ¬('$' : Char) ≠ '$'), if_neg hcne,
    takeWhile_eq_self_of_all isWordChar (c :: cs) hall]
  simp only [List.isEmpty_cons, Bool.false_eq_true, if_false, hmkname]
  cases henv : env name with
  | some v =>
    rw [List.drop_length]
    simp only [expandVarsL, List.append_nil]
  | none =>
    rw [List.drop_length]
    simp only [expandVarsL, List.append_nil]
    have : ("$" ++ name).data = '$' :: c :: cs := by
      rw [String.data_append, hd]
      rfl
    rw [show "$" ++ name = String.mk ('$' :: c :: cs) from by rw [← this]]

/-- Claim C8 witness: a defined and an undefined environment variable. -/
theorem claim_C8_env_witness :
    interpolate_env (fun s => if s = "FOO" then some "bar" else none) "FOO" =
      "bar" ∧
    interpolate_env (fun s => if s = "FOO" then some "bar" else none)
      "MISSING" = "$MISSING" := by
  constructor
  · exact claim_C8_env (fun s => if s = "FOO" then some "bar" else none)
      "FOO" (by decide) (by decide)
  · exact claim_C8_env (fun s => if s = "FOO" then some "bar" else none)
      "MISSING" (by decide) (by decide)

/-! ## Claim C10 -/

/-- `pySplitL` never returns the empty list. -/
theorem pySplitL_ne_nil (sep : Char) : ∀ (l : List Char), pySplitL sep l ≠ [] := by
  intro l
  induction l with
  | nil => simp [pySplitL]
  | cons c t ih =>
    simp only [pySplitL]
    cases pySplitL sep t with
    | nil => by_cases hc : c = sep <;> simp [hc]
    | cons h r => by_cases hc : c = sep <;> simp [hc]

/-- The number of split parts is one more than the separator count. -/
theorem pySplitL_length (sep : Char) :
    ∀ (l : List Char), (pySplitL sep l).length = countChar l sep + 1 := by
  intro l
  induction l with
  | nil => rfl
  | cons c t ih =>
    simp only [pySplitL]
    cases hs : pySplitL sep t with
    | nil => exact absurd hs (pySplitL_ne_nil sep t)
    | cons h r =>
      rw [hs] at ih
      simp only [List.length_cons] at ih
      simp only [countChar]
      by_cases hc : c = sep
      · rw [if_pos hc, if_pos hc]
        simp only [List.length_cons]
        omega
      · rw [if_neg hc, if_neg hc]
        simp only [List.length_cons]
        omega

/-- A character that occurs in the list is found by the substring test. -/
theorem containsSubL_single_of_count (l : List Char) (c : Char)
    (h : 1 ≤ countChar l c) : containsSubL l [c] = true := by
  induction l with
  | nil => simp [countChar] at h
  | cons a t ih =>
    unfold containsSubL
    by_cases hac : a = c
    · rw [if_pos]
      simp [List.isPrefixOf, hac]
    · have h1 : 1 ≤ countChar t c := by
        simp only [countChar, if_neg hac] at h
        omega
      rw [if_neg]
      · exact ih h1
      · intro hp
        simp only [List.isPrefixOf, Bool.and_eq_true, beq_iff_eq] at hp
        exact hac hp.1.symm

/-- A token with two or more `=` characters splits into three or more
parts, so the tuple unpacking of `_update_parameters` raises
`ValueError`. -/
theorem applyOverride_error_of_two_eq (cfg : Value) (tok : String)
    (h : 2 ≤ countChar tok.data '=') :
    applyOverride cfg tok = .error .valueError := by
  unfold applyOverride
  have hlen : (pySplit tok '=').length = countChar tok.data '=' + 1 := by
    simp [pySplit, pySplitL_length]
  cases hs : pySplit tok '=' with
  | nil => rfl
  | cons a r =>
    cases r with
    | nil => rfl
    | cons b r2 =>
      cases r2 with
      | nil =>
        rw [hs] at hlen
        simp only [List.length_cons, List.length_nil] at hlen
        omega
      | cons d r3 => rfl

/-- A successfully applied override has exactly one `=` in its token. -/
theorem applyOverride_ok_count (cfg : Value) (tok : String) (v : Value)
    (h : applyOverride cfg tok = .ok v) : countChar tok.data '=' = 1 := by
  have hlen : (pySplit tok '=').length = countChar tok.data '=' + 1 := by
    simp [pySplit, pySplitL_length]
  unfold applyOverride at h
  cases hs : pySplit tok '=' with
  | nil => rw [hs] at h; exact absurd h (by simp)
  | cons a r =>
    cases r with
    | nil => rw [hs] at h; exact absurd h (by simp)
    | cons b r2 =>
      cases r2 with
      | nil =>
        rw [hs] at hlen
        simp only [List.length_cons, List.length_nil] at hlen
        omega
      | cons d r3 => rw [hs] at h; exact absurd h (by simp)

/-- Claim C10 (confirmed): a CLI token with two or more `=` characters is
classified as a key-value override by `_parse_args`, but applying it
aborts with the tuple-unpacking `ValueError` of `para.split("=")` before
any value is set; and an override is applied successfully only when its
token contains exactly one `=`. -/
theorem claim_C10_override_eq :
    (∀ (tok : String) (cfg : Value), 2 ≤ countChar tok.data '=' →
       parse_args [tok] = ([], [tok]) ∧
       update_parameters cfg [tok] = .error .valueError) ∧
    (∀ (cfg : Value) (tok : String) (v : Value),
       applyOverride cfg tok = .ok v → countChar tok.data '=' = 1) := by
  constructor
  · intro tok cfg h
    have hc : containsSubL tok.data ['='] = true :=
      containsSubL_single_of_count tok.data '=' (by omega)
    constructor
    · simp [parse_args, hc]
    · have he := applyOverride_error_of_two_eq cfg tok h
      simp only [update_parameters, List.foldlM, he]
      rfl
  · exact applyOverride_ok_count

/-- Claim C10 witness: the theorem applied to the token `a=b=c` (two
equals signs) and to a successfully applied override token. -/
theorem claim_C10_override_eq_witness :
    (parse_args ["a=b=c"] = ([], ["a=b=c"]) ∧
     update_parameters (.vmap []) ["a=b=c"] = .error .valueError) ∧
    countChar "a.b=5".data '=' = 1 :=
  ⟨claim_C10_override_eq.1 "a=b=c" (.vmap []) (by decide),
   claim_C10_override_eq.2 (.vmap []) "a.b=5"
     (.vmap [("a", .vmap [("b", .vscal (.vstr "5"))])]) rfl⟩

end Confly
